import Mathlib

/-!
Verification development for the smart-grader annotation and report rendering
pipeline. The definitions below are shallow embeddings of the TypeScript
sources: the mark data model (src/types.ts), the orientation reconciler and
service-output mapping (gradeExamPages in src/unnamed/part_001), the
interactive mark editor operations (src/App.tsx), and the report compositor
and document assembler (wrapText and generateGradedPDF in
src/capacitor.config.ts). Floating-point percentage coordinates are embedded
as rationals; integer pixel dimensions as naturals.
-/

namespace SmartGrader

/-- Correctness status of a grading mark, from the union type in src/types.ts. -/
inductive Status
  | correct
  | incorrect
deriving DecidableEq

/-- A graded annotation anchored to a point on an exam page (interface
GradingMark in src/types.ts). x and y are percentages in [0,100]; the four
text fields are optional. -/
structure GradingMark where
  id : String
  x : ℚ
  y : ℚ
  status : Status
  pageIndex : Nat
  question : Option String := none
  studentAnswer : Option String := none
  correctAnswer : Option String := none
  explanation : Option String := none
deriving DecidableEq

/-- A raw per-mark record parsed from the external service response (the `m`
objects inside result.marks in gradeExamPages, src/unnamed/part_001). -/
structure RawMark where
  x : ℚ
  y : ℚ
  status : Status
  question : Option String := none
  student_answer : Option String := none
  correct_answer : Option String := none
  explanation : Option String := none
deriving DecidableEq

/-- Coordinate remapping applied to each service mark when the page needs
rotation (gradeExamPages, src/unnamed/part_001 lines 159-175): nx and ny are
chosen by the rotation branch and every other field is spread unchanged. -/
def transformRaw (rotation : Nat) (m : RawMark) : RawMark :=
  if rotation = 90 then { m with x := 100 - m.y, y := m.x }
  else if rotation = 180 then { m with x := 100 - m.x, y := 100 - m.y }
  else if rotation = 270 then { m with x := m.y, y := 100 - m.x }
  else m

/-- A concrete service mark at (x = 10, y = 20), used by end-to-end scenario A. -/
def sampleRawMark : RawMark :=
  { x := 10, y := 20, status := Status.correct }

/-- C1: for every mark, the reconciler remaps (x, y) exactly by the stated
percentage-space transform: rotation 90 sends it to (100 - y, x), 180 to
(100 - x, 100 - y), 270 to (y, 100 - x); in particular the mark at
(x = 10, y = 20) under rotation 90 lands at (x = 80, y = 10). -/
theorem transformRaw_remaps (m : RawMark) :
    (transformRaw 90 m).x = 100 - m.y ∧ (transformRaw 90 m).y = m.x ∧
    (transformRaw 180 m).x = 100 - m.x ∧ (transformRaw 180 m).y = 100 - m.y ∧
    (transformRaw 270 m).x = m.y ∧ (transformRaw 270 m).y = 100 - m.x ∧
    (transformRaw 90 sampleRawMark).x = 80 ∧ (transformRaw 90 sampleRawMark).y = 10 := by
  refine ⟨?_, ?_, ?_, ?_, ?_, ?_, ?_, ?_⟩ <;> norm_num [transformRaw, sampleRawMark]

/-- C2: applying the 90-degree transform four times to any mark with
coordinates in [0,100] squared returns the original coordinates within the
stated tolerance of 1e-9 (in the exact rational embedding the round trip is
an identity, so the difference is 0). -/
theorem transformRaw_rot90_fourfold (m : RawMark)
    (hx0 : 0 ≤ m.x) (hx1 : m.x ≤ 100) (hy0 : 0 ≤ m.y) (hy1 : m.y ≤ 100) :
    |(transformRaw 90 (transformRaw 90 (transformRaw 90 (transformRaw 90 m)))).x - m.x|
      ≤ 1 / 1000000000 ∧
    |(transformRaw 90 (transformRaw 90 (transformRaw 90 (transformRaw 90 m)))).y - m.y|
      ≤ 1 / 1000000000 := by
  constructor <;> simp [transformRaw]

/-- Witness for C2 at the concrete mark (x = 10, y = 20). -/
theorem transformRaw_rot90_fourfold_check :
    |(transformRaw 90 (transformRaw 90 (transformRaw 90 (transformRaw 90
        sampleRawMark)))).x - sampleRawMark.x| ≤ 1 / 1000000000 ∧
    |(transformRaw 90 (transformRaw 90 (transformRaw 90 (transformRaw 90
        sampleRawMark)))).y - sampleRawMark.y| ≤ 1 / 1000000000 :=
  transformRaw_rot90_fourfold sampleRawMark (by decide) (by decide) (by decide) (by decide)

/-- Loop of wrapText over the remaining characters (src/capacitor.config.ts
lines 29-41) together with the final flush after the loop (line 42).
`measure` abstracts ctx.measureText(...).width; the state is the loop index
`i`, the accumulated `line` and the cursor `currentY`. The first result
component lists the lines passed to ctx.fillText, in order (the final flush
included); the second is the final currentY. -/
def wrapTextAux (measure : List Char → ℚ) (maxWidth lineHeight : ℚ) :
    List Char → Nat → List Char → ℚ → List (List Char) × ℚ
  | [], _, line, currentY => ([line], currentY)
  | c :: rest, i, line, currentY =>
    if measure (line ++ [c]) > maxWidth ∧ 0 < i then
      let r := wrapTextAux measure maxWidth lineHeight rest (i + 1) [c] (currentY + lineHeight)
      (line :: r.1, r.2)
    else
      wrapTextAux measure maxWidth lineHeight rest (i + 1) (line ++ [c]) currentY

/-- Return value of wrapText (src/capacitor.config.ts lines 16-44): the final
currentY plus one line height. The `x` parameter is the draw abscissa, kept
for signature fidelity; it does not influence the returned cursor. -/
def wrapText (measure : List Char → ℚ) (text : String)
    (x y maxWidth lineHeight : ℚ) : ℚ :=
  (wrapTextAux measure maxWidth lineHeight text.toList 0 [] y).2 + lineHeight

/-- Lines flushed to the canvas by one wrapText call, in order. -/
def wrapFlushes (measure : List Char → ℚ) (text : String)
    (x y maxWidth lineHeight : ℚ) : List (List Char) :=
  (wrapTextAux measure maxWidth lineHeight text.toList 0 [] y).1

/-- Helper: the final cursor of the wrap loop never drops below the cursor it
started from, provided the line height is non-negative. -/
theorem wrapTextAux_le (measure : List Char → ℚ) (maxWidth lineHeight : ℚ)
    (hl : 0 ≤ lineHeight) :
    ∀ (cs : List Char) (i : Nat) (line : List Char) (y : ℚ),
      y ≤ (wrapTextAux measure maxWidth lineHeight cs i line y).2
  | [], _, _, _ => le_refl _
  | c :: rest, i, line, y => by
    rw [wrapTextAux]
    split
    · dsimp only
      calc y ≤ y + lineHeight := by linarith
        _ ≤ _ := wrapTextAux_le measure maxWidth lineHeight hl rest (i + 1) [c] (y + lineHeight)
    · exact wrapTextAux_le measure maxWidth lineHeight hl rest (i + 1) (line ++ [c]) y

/-- C5 (amended): for every non-empty text, positive max width and positive
line height, the wrap routine (a total structurally recursive function, hence
terminating) returns a cursor strictly greater than the input cursor. -/
theorem wrapText_advances (measure : List Char → ℚ) (text : String)
    (x y maxWidth lineHeight : ℚ) (ht : text ≠ "") (hw : 0 < maxWidth)
    (hl : 0 < lineHeight) :
    y < wrapText measure text x y maxWidth lineHeight := by
  have h := wrapTextAux_le measure maxWidth lineHeight (le_of_lt hl) text.toList 0 [] y
  unfold wrapText
  linarith

/-- Witness for C5 (amended) at text "ab", max width 1, line height 2. -/
theorem wrapText_advances_check :
    (0 : ℚ) < wrapText (fun l => (l.length : ℚ)) ("ab") 0 0 1 2 :=
  wrapText_advances (fun l => (l.length : ℚ)) ("ab") 0 0 1 2 (by decide)
    (by norm_num) (by norm_num)

/-- C5 counterexample: the claim quantifies only over the text and the max
width, but with line height 0 (which the caller produces whenever the image
is narrow enough that baseFontSize floors to 0) the routine returns exactly
the input cursor: text "a" is non-empty and max width 1 is positive, yet the
returned cursor equals the input cursor 0. -/
theorem wrapText_not_always_advancing :
    wrapText (fun _ => 0) ("a") 0 0 1 0 = 0 ∧ ("a" : String) ≠ "" ∧ (0 : ℚ) < 1 := by
  have h : ("a" : String).toList = ['a'] := rfl
  exact ⟨by simp [wrapText, wrapTextAux, h], by decide, by norm_num⟩

/-- Helper: once the accumulated line is non-empty, every line the wrap loop
flushes is non-empty, and the number of flushed lines is at most the number
of remaining characters plus one. -/
theorem wrapTextAux_flush_invariant (measure : List Char → ℚ)
    (maxWidth lineHeight : ℚ) :
    ∀ (cs : List Char) (i : Nat) (line : List Char) (y : ℚ), line ≠ [] →
      (∀ l ∈ (wrapTextAux measure maxWidth lineHeight cs i line y).1, l ≠ []) ∧
      (wrapTextAux measure maxWidth lineHeight cs i line y).1.length ≤ cs.length + 1
  | [], _, line, y, hline => by
    rw [wrapTextAux]
    exact ⟨by simpa using hline, by simp⟩
  | c :: rest, i, line, y, hline => by
    rw [wrapTextAux]
    split
    · have ih := wrapTextAux_flush_invariant measure maxWidth lineHeight rest (i + 1)
        [c] (y + lineHeight) (by simp)
      dsimp only
      refine ⟨?_, ?_⟩
      · intro l hl
        rcases List.mem_cons.mp hl with h | h
        · exact h ▸ hline
        · exact ih.1 l h
      · simpa using Nat.succ_le_succ ih.2
    · have ih := wrapTextAux_flush_invariant measure maxWidth lineHeight rest (i + 1)
        (line ++ [c]) y (by simp)
      exact ⟨ih.1, le_trans ih.2 (by simp)⟩

/-- C10 (amended): for every non-empty input string, the width check being
skipped at index 0 guarantees every flushed line carries at least one
character, and the number of flushed lines is at most the number of
characters of the string. -/
theorem wrapFlushes_bounds (measure : List Char → ℚ) (text : String)
    (x y maxWidth lineHeight : ℚ) (ht : text ≠ "") :
    (∀ l ∈ wrapFlushes measure text x y maxWidth lineHeight, l ≠ []) ∧
    (wrapFlushes measure text x y maxWidth lineHeight).length ≤ text.length := by
  have hlen : text.length = text.toList.length := rfl
  unfold wrapFlushes
  rcases hcs : text.toList with _ | ⟨c, rest⟩
  · exact absurd (by cases text; simp_all [String.toList]) ht
  · rw [wrapTextAux]
    rw [if_neg (by simp)]
    have ih := wrapTextAux_flush_invariant measure maxWidth lineHeight rest 1
      ([] ++ [c]) y (by simp)
    refine ⟨ih.1, ?_⟩
    rw [hlen, hcs]
    simpa using ih.2

/-- Witness for C10 (amended) at text "abc" with unit character widths and
max width 1: the flushes are ["a"], ["b"], ["c"]. -/
theorem wrapFlushes_bounds_check :
    (∀ l ∈ wrapFlushes (fun l => (l.length : ℚ)) ("abc") 0 0 1 1, l ≠ []) ∧
    (wrapFlushes (fun l => (l.length : ℚ)) ("abc") 0 0 1 1).length
      ≤ ("abc" : String).length :=
  wrapFlushes_bounds (fun l => (l.length : ℚ)) ("abc") 0 0 1 1 (by decide)

/-- C10 counterexample: on the empty input string the loop body never runs
and the final fillText call flushes the empty accumulated line, so exactly
one line is flushed — more than the zero characters of the string — and that
flushed line contains no character. -/
theorem wrapFlushes_empty_string :
    wrapFlushes (fun _ => 0) ("") 0 0 1 1 = [[]] ∧ ("" : String).length = 0 :=
  ⟨rfl, rfl⟩

/-- Ordered insertion embedding the compositor's sort of a page's marks by
ascending y (marks.filter(...).sort((a, b) => a.y - b.y) in generateGradedPDF,
src/capacitor.config.ts lines 61-63). JavaScript Array.prototype.sort is
stable, and a stable sort by a total preorder has a unique result, so
insertion placing each element before the first element of
greater-or-equal y embeds it exactly. -/
def orderedInsertY (m : GradingMark) : List GradingMark → List GradingMark
  | [] => [m]
  | n :: ns => if m.y ≤ n.y then m :: n :: ns else n :: orderedInsertY m ns

/-- Stable sort of a list of marks by ascending y. -/
def sortByY (l : List GradingMark) : List GradingMark :=
  l.foldr orderedInsertY []

/-- Marks the compositor lays out for page i: the page's marks in arrival
order, sorted stably by ascending y. -/
def pageMarksFor (marks : List GradingMark) (i : Nat) : List GradingMark :=
  sortByY (marks.filter (fun m => m.pageIndex == i))

/-- Helper: membership in an ordered insertion. -/
theorem mem_orderedInsertY {b m : GradingMark} {l : List GradingMark} :
    b ∈ orderedInsertY m l ↔ b = m ∨ b ∈ l := by
  induction l with
  | nil => simp [orderedInsertY]
  | cons n ns ih =>
    rw [orderedInsertY]
    split
    · simp [or_comm, or_left_comm]
    · simp [ih, or_left_comm]

/-- Helper: ordered insertion preserves sortedness by y. -/
theorem orderedInsertY_sorted (m : GradingMark) (l : List GradingMark)
    (hl : List.Sorted (fun a b : GradingMark => a.y ≤ b.y) l) :
    List.Sorted (fun a b : GradingMark => a.y ≤ b.y) (orderedInsertY m l) := by
  induction l with
  | nil => simp [orderedInsertY]
  | cons n ns ih =>
    rw [orderedInsertY]
    rcases List.sorted_cons.mp hl with ⟨hn, hns⟩
    split_ifs with h
    · refine List.sorted_cons.mpr ⟨?_, hl⟩
      intro b hb
      rcases List.mem_cons.mp hb with hb | hb
      · exact hb ▸ h
      · exact le_trans h (hn b hb)
    · refine List.sorted_cons.mpr ⟨?_, ih hns⟩
      intro b hb
      rcases mem_orderedInsertY.mp hb with hb | hb
      · exact hb ▸ le_of_not_le h
      · exact hn b hb

/-- Helper: ordered insertion is a permutation of consing. -/
theorem orderedInsertY_perm (m : GradingMark) (l : List GradingMark) :
    List.Perm (orderedInsertY m l) (m :: l) := by
  induction l with
  | nil => exact List.Perm.refl _
  | cons n ns ih =>
    rw [orderedInsertY]
    split
    · exact List.Perm.refl _
    · exact (List.Perm.cons n ih).trans (List.Perm.swap m n ns)

/-- Helper: the y-filter of an ordered insertion keeps the inserted element
in front of the equal-y elements already present. -/
theorem filter_orderedInsertY (m : GradingMark) (l : List GradingMark) (q : ℚ) :
    (orderedInsertY m l).filter (fun n => decide (n.y = q)) =
      if m.y = q then m :: l.filter (fun n => decide (n.y = q))
      else l.filter (fun n => decide (n.y = q)) := by
  induction l with
  | nil =>
    by_cases hq : m.y = q <;> simp [orderedInsertY, List.filter_cons, hq]
  | cons n ns ih =>
    rw [orderedInsertY]
    rcases le_or_lt m.y n.y with hmn | hnm
    · rw [if_pos hmn]
      by_cases hq : m.y = q <;> simp [List.filter_cons, hq]
    · rw [if_neg (not_le.mpr hnm)]
      by_cases hq : m.y = q
      · have hnq : ¬ n.y = q := ne_of_lt (hq ▸ hnm)
        simp [List.filter_cons, hnq, ih, hq]
      · by_cases hn : n.y = q <;> simp [List.filter_cons, hn, ih, hq]

/-- Helper: sortByY is sorted by ascending y. -/
theorem sortByY_sorted (l : List GradingMark) :
    List.Sorted (fun a b : GradingMark => a.y ≤ b.y) (sortByY l) := by
  induction l with
  | nil => simp [sortByY]
  | cons m ms ih => exact orderedInsertY_sorted m (sortByY ms) ih

/-- Helper: sortByY permutes its input. -/
theorem sortByY_perm (l : List GradingMark) : List.Perm (sortByY l) l := by
  induction l with
  | nil => exact List.Perm.refl _
  | cons m ms ih =>
    exact (orderedInsertY_perm m (sortByY ms)).trans (List.Perm.cons m ih)

/-- Helper: sortByY is stable — for every y value q, the subsequence of
elements with y = q is exactly the corresponding subsequence of the input. -/
theorem sortByY_stable (l : List GradingMark) (q : ℚ) :
    (sortByY l).filter (fun n => decide (n.y = q)) =
      l.filter (fun n => decide (n.y = q)) := by
  induction l with
  | nil => rfl
  | cons m ms ih =>
    show (orderedInsertY m (sortByY ms)).filter _ = _
    rw [filter_orderedInsertY]
    by_cases hq : m.y = q <;> simp [List.filter_cons, hq, ih]

/-- Example marks with arrival-order y values 50, 10, 90, 10 (the two y = 10
marks are B then D). -/
def exMarkA : GradingMark :=
  { id := ("a"), x := 0, y := 50, status := Status.correct, pageIndex := 0 }

/-- Second example mark, first of the two with y = 10. -/
def exMarkB : GradingMark :=
  { id := ("b"), x := 0, y := 10, status := Status.correct, pageIndex := 0 }

/-- Third example mark, with y = 90. -/
def exMarkC : GradingMark :=
  { id := ("c"), x := 0, y := 90, status := Status.incorrect, pageIndex := 0 }

/-- Fourth example mark, second of the two with y = 10. -/
def exMarkD : GradingMark :=
  { id := ("d"), x := 0, y := 10, status := Status.incorrect, pageIndex := 0 }

/-- C4: the marks the compositor lays out for a page are that page's marks
ordered by non-decreasing y; the order is a permutation of the page's marks
and the sort is stable (for every y value, equal-y marks keep their arrival
order); in particular the example list with y values [50, 10, 90, 10] sorts
to [10 (B), 10 (D), 50 (A), 90 (C)] with B still before D. -/
theorem pageMarks_sorted_and_stable (marks : List GradingMark) (i : Nat) :
    List.Sorted (fun a b : GradingMark => a.y ≤ b.y) (pageMarksFor marks i) ∧
    List.Perm (pageMarksFor marks i) (marks.filter (fun m => m.pageIndex == i)) ∧
    (∀ q : ℚ, (pageMarksFor marks i).filter (fun n => decide (n.y = q)) =
      (marks.filter (fun m => m.pageIndex == i)).filter (fun n => decide (n.y = q))) ∧
    sortByY [exMarkA, exMarkB, exMarkC, exMarkD] = [exMarkB, exMarkD, exMarkA, exMarkC] := by
  refine ⟨sortByY_sorted _, sortByY_perm _, fun q => sortByY_stable _ q, ?_⟩
  norm_num [sortByY, orderedInsertY, exMarkA, exMarkB, exMarkC, exMarkD]

/-- Image-load outcome and canvas-context availability for one page of a
generateGradedPDF call (src/capacitor.config.ts): `load = some (w, h)` models
img.onload firing with naturalWidth w and naturalHeight h, `load = none`
models img.onerror (the awaited promise rejects); `ctxOk` models whether
canvas.getContext returns a context. -/
structure PageLoad where
  load : Option (Nat × Nat)
  ctxOk : Bool
deriving DecidableEq

/-- Failure raised by generateGradedPDF: the rejected image-load promise. -/
inductive PDFError
  | imageLoadError
deriving DecidableEq

/-- Sidebar width (src/capacitor.config.ts line 79):
Math.floor(originalWidth * 0.45), embedded as natural floor division. -/
def sidebarWidth (w : Nat) : Nat := w * 45 / 100

/-- Width of the composited surface: image width plus sidebar width
(src/capacitor.config.ts line 80). -/
def totalWidth (w : Nat) : Nat := w + sidebarWidth w

/-- Page-dimension behaviour of the generateGradedPDF loop
(src/capacitor.config.ts lines 59-210): each page's image is awaited (a load
failure rejects the whole call), a page whose 2d context cannot be created is
skipped by the statement `if (!ctx) continue;`, and otherwise a PDF page
sized (totalWidth, height) is appended. -/
def generateGradedPDF : List PageLoad → Except PDFError (List (Nat × Nat))
  | [] => Except.ok []
  | p :: ps =>
    match p.load with
    | none => Except.error PDFError.imageLoadError
    | some (w, h) =>
      if p.ctxOk then
        match generateGradedPDF ps with
        | Except.ok rest => Except.ok ((totalWidth w, h) :: rest)
        | Except.error e => Except.error e
      else
        generateGradedPDF ps

/-- C3 counterexample: for image width 10 the sidebar is
Math.floor(10 * 0.45) = 4 pixels, so the one assembled page has width 14,
not 10 + 0.45 * 10 = 14.5 as the claim states for all image widths. -/
theorem surfaceWidth_not_exact_ratio :
    generateGradedPDF [{ load := some (10, 20), ctxOk := true }] =
      Except.ok [(14, 20)] ∧
    ((14 : ℚ) ≠ 10 + 45 / 100 * 10) := by
  exact ⟨rfl, by norm_num⟩

/-- C3 (amended): the sidebar width is the floor of 0.45 times the image
width (within one pixel below the exact ratio), the composited surface is
(w + sidebarWidth w) by h, and a one-page input whose image loads with a
context available assembles exactly one page of exactly that size. -/
theorem surface_dimensions (w h : Nat) :
    ((sidebarWidth w : ℚ) ≤ 45 / 100 * w ∧ (45 : ℚ) / 100 * w < sidebarWidth w + 1) ∧
    generateGradedPDF [{ load := some (w, h), ctxOk := true }] =
      Except.ok [(totalWidth w, h)] ∧
    totalWidth w = w + sidebarWidth w := by
  have h1 : sidebarWidth w * 100 ≤ w * 45 := Nat.div_mul_le_self _ _
  have h2 : w * 45 < (sidebarWidth w + 1) * 100 := by
    unfold sidebarWidth
    omega
  have h1q : ((sidebarWidth w : ℚ)) * 100 ≤ (w : ℚ) * 45 := by exact_mod_cast h1
  have h2q : (w : ℚ) * 45 < ((sidebarWidth w : ℚ) + 1) * 100 := by exact_mod_cast h2
  exact ⟨⟨by linarith, by linarith⟩, rfl, rfl⟩

/-- C6 counterexample: a page whose image loads fine (100 by 100) but whose
canvas context creation fails is dropped silently: the call succeeds with an
empty page list and no error, whereas the same page with a context produces
one output page. -/
theorem ctx_failure_drops_page_silently :
    generateGradedPDF [{ load := some (100, 100), ctxOk := false }] =
      Except.ok [] ∧
    generateGradedPDF [{ load := some (100, 100), ctxOk := true }] =
      Except.ok [(145, 100)] :=
  ⟨rfl, rfl⟩

/-- C6 (amended): if any page's image fails to load or decode, the whole call
fails with the image-load error (the page is never silently skipped on that
path); and when every image loads and every canvas context is available the
output has exactly one page per input page. Context-creation failure is the
one path that drops a page without an error. -/
theorem pdf_error_propagation :
    (∀ ps : List PageLoad, (∃ p ∈ ps, p.load = none) →
      generateGradedPDF ps = Except.error PDFError.imageLoadError) ∧
    (∀ ps : List PageLoad, (∀ p ∈ ps, p.load ≠ none) →
      (∀ p ∈ ps, p.ctxOk = true) →
      ∃ out : List (Nat × Nat), generateGradedPDF ps = Except.ok out ∧
        out.length = ps.length) := by
  constructor
  · intro ps
    induction ps with
    | nil => rintro ⟨p, hp, _⟩; exact absurd hp (List.not_mem_nil p)
    | cons q qs ih =>
      rintro ⟨p, hp, hnone⟩
      rcases List.mem_cons.mp hp with hpq | hp2
      · have hq : q.load = none := hpq ▸ hnone
        simp [generateGradedPDF, hq]
      · rcases hql : q.load with _ | ⟨w, h⟩
        · simp [generateGradedPDF, hql]
        · have herr := ih ⟨p, hp2, hnone⟩
          by_cases hctx : q.ctxOk <;> simp [generateGradedPDF, hql, herr, hctx]
  · intro ps
    induction ps with
    | nil => exact fun _ _ => ⟨[], rfl, rfl⟩
    | cons q qs ih =>
      intro h1 h2
      obtain ⟨out, hout, hlen⟩ :=
        ih (fun p hp => h1 p (List.mem_cons_of_mem q hp))
          (fun p hp => h2 p (List.mem_cons_of_mem q hp))
      have hq := h1 q (List.mem_cons_self q qs)
      rcases hql : q.load with _ | ⟨w, h⟩
      · exact absurd hql hq
      · have hctx := h2 q (List.mem_cons_self q qs)
        refine ⟨(totalWidth w, h) :: out, ?_, by simp [hlen]⟩
        simp [generateGradedPDF, hql, hctx, hout]

/-- Witness for C6 (amended): a failing one-page batch errors out, and a
healthy one-page batch yields exactly one output page. -/
theorem pdf_error_propagation_check :
    generateGradedPDF [{ load := none, ctxOk := true }] =
      Except.error PDFError.imageLoadError ∧
    ∃ out : List (Nat × Nat),
      generateGradedPDF [{ load := some (200, 100), ctxOk := true }] =
        Except.ok out ∧ out.length = 1 := by
  constructor
  · exact pdf_error_propagation.1 _ ⟨{ load := none, ctxOk := true }, by simp, rfl⟩
  · simpa using pdf_error_propagation.2 [{ load := some (200, 100), ctxOk := true }]
      (by decide) (by decide)

/-- JavaScript a || b for an optional string: a falsy left side (absent
field or empty string) falls back to the default (used on the optional
service fields in gradeExamPages, src/unnamed/part_001 lines 192-195). -/
def jsOr (o : Option String) (d : String) : String :=
  match o with
  | none => d
  | some s => if s = "" then d else s

/-- Mapping of one raw service mark to a session GradingMark performed by
gradeExamPages (src/unnamed/part_001 lines 185-197): the id is built from the
page id and a random suffix, coordinates and status are copied, the page
index recorded, and each optional text field is defaulted to the
language-appropriate placeholder via the JavaScript || operator. -/
def toGradingMark (language : String) (pageId : String) (rnd : String)
    (i : Nat) (m : RawMark) : GradingMark :=
  { id := ("mark-") ++ pageId ++ ("-") ++ rnd
  , x := m.x
  , y := m.y
  , status := m.status
  , pageIndex := i
  , question := some (jsOr m.question
      (if language = ("zh") then ("题目") else ("Question")))
  , studentAnswer := some (jsOr m.student_answer
      (if language = ("zh") then ("未知") else ("Unknown")))
  , correctAnswer := some (jsOr m.correct_answer ("-"))
  , explanation := some (jsOr m.explanation
      (if language = ("zh") then ("无解析") else ("No explanation provided."))) }

/-- C7: each missing optional text field of a service mark is replaced by the
language-appropriate placeholder: with detected language "zh" a missing
question becomes "题目", a missing student answer "未知", a missing correct
answer "-" and a missing explanation "无解析"; with language "en" they
become "Question", "Unknown", "-" and "No explanation provided.". -/
theorem toGradingMark_defaults (pageId rnd : String) (i : Nat) (m : RawMark) :
    (m.question = none → (toGradingMark ("zh") pageId rnd i m).question = some ("题目")) ∧
    (m.student_answer = none →
      (toGradingMark ("zh") pageId rnd i m).studentAnswer = some ("未知")) ∧
    (m.correct_answer = none →
      (toGradingMark ("zh") pageId rnd i m).correctAnswer = some ("-")) ∧
    (m.explanation = none →
      (toGradingMark ("zh") pageId rnd i m).explanation = some ("无解析")) ∧
    (m.question = none →
      (toGradingMark ("en") pageId rnd i m).question = some ("Question")) ∧
    (m.student_answer = none →
      (toGradingMark ("en") pageId rnd i m).studentAnswer = some ("Unknown")) ∧
    (m.correct_answer = none →
      (toGradingMark ("en") pageId rnd i m).correctAnswer = some ("-")) ∧
    (m.explanation = none →
      (toGradingMark ("en") pageId rnd i m).explanation =
        some ("No explanation provided.")) := by
  refine ⟨?_, ?_, ?_, ?_, ?_, ?_, ?_, ?_⟩ <;>
    intro hnone <;> simp [toGradingMark, jsOr, hnone]

/-- A raw service mark carrying none of the optional text fields. -/
def emptyRawMark : RawMark :=
  { x := 1, y := 2, status := Status.correct }

/-- Witness for C7 at a mark with no optional text fields, both languages. -/
theorem toGradingMark_defaults_check :
    (toGradingMark ("zh") ("p") ("r") 0 emptyRawMark).question = some ("题目") ∧
    (toGradingMark ("zh") ("p") ("r") 0 emptyRawMark).studentAnswer = some ("未知") ∧
    (toGradingMark ("zh") ("p") ("r") 0 emptyRawMark).correctAnswer = some ("-") ∧
    (toGradingMark ("zh") ("p") ("r") 0 emptyRawMark).explanation = some ("无解析") ∧
    (toGradingMark ("en") ("p") ("r") 0 emptyRawMark).question = some ("Question") ∧
    (toGradingMark ("en") ("p") ("r") 0 emptyRawMark).studentAnswer = some ("Unknown") ∧
    (toGradingMark ("en") ("p") ("r") 0 emptyRawMark).correctAnswer = some ("-") ∧
    (toGradingMark ("en") ("p") ("r") 0 emptyRawMark).explanation =
      some ("No explanation provided.") := by
  have h := toGradingMark_defaults ("p") ("r") 0 emptyRawMark
  exact ⟨h.1 rfl, h.2.1 rfl, h.2.2.1 rfl, h.2.2.2.1 rfl, h.2.2.2.2.1 rfl,
    h.2.2.2.2.2.1 rfl, h.2.2.2.2.2.2.1 rfl, h.2.2.2.2.2.2.2 rfl⟩

/-- Mark-editor update (updateMark in src/App.tsx lines 52-54): every mark
whose id equals the incoming mark's id is replaced by it, all other marks are
kept in place. -/
def updateMark (marks : List GradingMark) (updatedMark : GradingMark) :
    List GradingMark :=
  marks.map (fun m => if m.id = updatedMark.id then updatedMark else m)

/-- Helper: when the mark ids are pairwise distinct and position i holds the
matching id, updateMark is exactly a replacement at position i. -/
theorem updateMark_set : ∀ (marks : List GradingMark) (u : GradingMark),
    (marks.map GradingMark.id).Nodup →
    ∀ (i : Nat) (h : i < marks.length), (marks.get ⟨i, h⟩).id = u.id →
    updateMark marks u = marks.set i u
  | [], _, _, i, h, _ => absurd h (Nat.not_lt_zero i)
  | m :: ms, u, hnd, 0, _, hid => by
    have hid2 : m.id = u.id := hid
    have hnotin : m.id ∉ ms.map GradingMark.id := (List.nodup_cons.mp hnd).1
    have htail : ∀ n ∈ ms, ¬ n.id = u.id := by
      intro n hn heq
      exact hnotin (by
        rw [show m.id = n.id from by rw [hid2, ← heq]]
        exact List.mem_map_of_mem GradingMark.id hn)
    show (if m.id = u.id then u else m) :: updateMark ms u = u :: ms
    rw [if_pos hid2]
    have : updateMark ms u = ms.map id := by
      exact List.map_congr_left (fun n hn => if_neg (htail n hn))
    rw [this, List.map_id]
  | m :: ms, u, hnd, i + 1, h, hid => by
    have hid2 : (ms.get ⟨i, Nat.lt_of_succ_lt_succ h⟩).id = u.id := hid
    have hnotin : m.id ∉ ms.map GradingMark.id := (List.nodup_cons.mp hnd).1
    have hmem : u.id ∈ ms.map GradingMark.id := by
      rw [← hid2]
      exact List.mem_map_of_mem GradingMark.id (ms.get_mem _ _)
    have hm : ¬ m.id = u.id := fun heq => hnotin (heq ▸ hmem)
    show (if m.id = u.id then u else m) :: updateMark ms u = m :: ms.set i u
    rw [if_neg hm,
      updateMark_set ms u (List.nodup_cons.mp hnd).2 i (Nat.lt_of_succ_lt_succ h) hid2]

/-- C8: with an id matching no mark, updateMark leaves the mark set exactly
unchanged — no error, no insertion; with a matching id (under the session's
distinct-id discipline) it replaces exactly that mark, keeping every other
mark and the list order. -/
theorem updateMark_semantics (marks : List GradingMark) (u : GradingMark) :
    ((∀ m ∈ marks, ¬ m.id = u.id) → updateMark marks u = marks) ∧
    ((marks.map GradingMark.id).Nodup →
      ∀ (i : Nat) (h : i < marks.length), (marks.get ⟨i, h⟩).id = u.id →
        updateMark marks u = marks.set i u) := by
  constructor
  · intro hne
    have : updateMark marks u = marks.map id :=
      List.map_congr_left (fun n hn => if_neg (hne n hn))
    rw [this, List.map_id]
  · exact fun hnd i h hid => updateMark_set marks u hnd i h hid

/-- Witness for C8: an unknown id leaves a one-mark set unchanged, and a
matching id replaces the one mark. -/
theorem updateMark_semantics_check :
    updateMark [{ id := ("m1"), x := 1, y := 2, status := Status.correct, pageIndex := 0 }]
      { id := ("m2"), x := 3, y := 4, status := Status.incorrect, pageIndex := 0 } =
      [{ id := ("m1"), x := 1, y := 2, status := Status.correct, pageIndex := 0 }] ∧
    updateMark [{ id := ("m1"), x := 1, y := 2, status := Status.correct, pageIndex := 0 }]
      { id := ("m1"), x := 3, y := 4, status := Status.incorrect, pageIndex := 0 } =
      [{ id := ("m1"), x := 3, y := 4, status := Status.incorrect, pageIndex := 0 }] := by
  constructor
  · exact (updateMark_semantics _ _).1 (by
      intro m hm
      rw [List.mem_singleton] at hm
      subst hm
      decide)
  · have h := (updateMark_semantics
      [{ id := ("m1"), x := 1, y := 2, status := Status.correct, pageIndex := 0 }]
      { id := ("m1"), x := 3, y := 4, status := Status.incorrect, pageIndex := 0 }).2
      (by simp) 0 (by simp) rfl
    simpa using h

/-- Interactive mark creation (addMark in src/App.tsx lines 60-69): builds a
mark whose id is the string manual- followed by Date.now() (modelled as the
`now` parameter, milliseconds), default status correct, no text fields, and
appends it to the session's mark list. -/
def addMark (marks : List GradingMark) (now : Nat) (x y : ℚ)
    (pageIndex : Nat) : List GradingMark :=
  marks ++ [{ id := ("manual-") ++ toString now, x := x, y := y,
              status := Status.correct, pageIndex := pageIndex }]

/-- C9 evaluation at the failing input: two interactive adds within the same
millisecond (Date.now() = 1000 for both) produce two session marks carrying
the identical id "manual-1000", violating pairwise distinctness of ids. -/
theorem addMark_same_millisecond_duplicate :
    (addMark (addMark [] 1000 10 20 0) 1000 30 40 0).map GradingMark.id =
      [("manual-1000"), ("manual-1000")] ∧
    ¬ ((addMark (addMark [] 1000 10 20 0) 1000 30 40 0).map GradingMark.id).Nodup := by
  constructor
  · rfl
  · decide

end SmartGrader
